import Mathlib

/-!
Verification of the Almusbah product-monitor pipeline: a shallow embedding of
the snapshot differ, the notification dispatcher, the scraper's field
extraction (price, status, product id) and pagination loop, and the
retrying Telegram sender, together with theorems settling the spec's claims.

Python dicts keyed by product id are embedded as association lists
(`List (String × Product)`) in insertion order; per-attempt network effects
are abstracted as oracle functions (`fetch`, `send`, `deliver`) so delivery
and retry behaviour become pure recursions over those oracles.
-/

/-- A scraped product record, mirroring the dict built by
`ZidScraper._parse_product` (fields `id`, `name`, `url`, `price`, `status`;
`status` is one of the two verbatim strings `"Available"` / `"Out of Stock"`). -/
structure Product where
  id : String
  name : String
  url : String
  price : String
  status : String
  deriving DecidableEq, Repr

/-- A snapshot: the Python dict mapping product id to product, in insertion
order. -/
abbrev Snapshot : Type := List (String × Product)

/-- The id keys of a snapshot (Python `dict` key view, in order). -/
def snapKeys (s : Snapshot) : List String :=
  s.map Prod.fst

/-- Python `p_id in old`: membership test on a dict's keys. -/
def containsKey (k : String) (s : Snapshot) : Bool :=
  s.any (fun e => e.1 == k)

/-- Python `old[p_id]` (guarded by a prior `in` test): first binding lookup. -/
def snapLookup (k : String) (s : Snapshot) : Option Product :=
  s.lookup k

/-- `ProductMonitor._detect_new_products`: walk `current.items()` in order,
keeping products whose id is absent from `old`. -/
def detect_new_products (current old : Snapshot) : List Product :=
  current.filterMap
    (fun e => if containsKey e.1 old then none else some e.2)

/-- `ProductMonitor._detect_deleted_products`: walk `old.items()` in order,
keeping products whose id is absent from `current`. -/
def detect_deleted_products (current old : Snapshot) : List Product :=
  old.filterMap
    (fun e => if containsKey e.1 current then none else some e.2)

/-- `ProductMonitor._detect_status_changes`: for each id in `current` also in
`old`, `Available → Out of Stock` goes to the first list (`went_out`),
`Out of Stock → Available` to the second (`came_back`), via the source's
`if`/`elif`. -/
def detect_status_changes : Snapshot → Snapshot → List Product × List Product
  | [], _ => ([], [])
  | (k, np) :: rest, old =>
    let r := detect_status_changes rest old
    match snapLookup k old with
    | some op =>
      if op.status == "Available" && np.status == "Out of Stock" then
        (np :: r.1, r.2)
      else if op.status == "Out of Stock" && np.status == "Available" then
        (r.1, np :: r.2)
      else r
    | none => r

/-- One entry of `changes['price_changes']`: the dict
`{product, old_price, new_price}` built by `_detect_price_changes`. -/
structure PriceChange where
  product : Product
  old_price : String
  new_price : String
  deriving DecidableEq, Repr

/-- `ProductMonitor._detect_price_changes`: for each id in `current` also in
`old`, any string inequality of prices is recorded verbatim. -/
def detect_price_changes : Snapshot → Snapshot → List PriceChange
  | [], _ => []
  | (k, np) :: rest, old =>
    let r := detect_price_changes rest old
    match snapLookup k old with
    | some op => if op.price != np.price then ⟨np, op.price, np.price⟩ :: r else r
    | none => r

/-- The five change lists held in `ProductMonitor.changes`. -/
structure Changes where
  new : List Product
  out_of_stock : List Product
  back_in_stock : List Product
  deleted : List Product
  price_changes : List PriceChange
  deriving DecidableEq, Repr

/-- Steps 5a–5d of `ProductMonitor.run_check`: populate the five change
lists from the two snapshots. -/
def computeChanges (current old : Snapshot) : Changes :=
  { new := detect_new_products current old
    out_of_stock := (detect_status_changes current old).1
    back_in_stock := (detect_status_changes current old).2
    deleted := detect_deleted_products current old
    price_changes := detect_price_changes current old }

/-- `ProductMonitor._check_if_first_run`: the database was empty. -/
def check_if_first_run (old : Snapshot) : Bool :=
  old.length == 0

/-- `current_products = {p['id']: p for p in current_products_list}`:
Python dict-comprehension insertion (first occurrence keeps its slot, the
last value for a key wins). -/
def dictInsert (s : Snapshot) (k : String) (p : Product) : Snapshot :=
  if containsKey k s then
    s.map (fun e => if e.1 == k then (k, p) else e)
  else s ++ [(k, p)]

/-- Build the current snapshot from the scraped product list. -/
def snapshotOfList (ps : List Product) : Snapshot :=
  ps.foldl (fun acc p => dictInsert acc p.id p) ([] : List (String × Product))

/-- One tagged notification task, mirroring the `(type, data)` tuples built
in `ProductMonitor._send_notifications`. -/
inductive NotifTask where
  | newProduct (p : Product)
  | outOfStock (p : Product)
  | backInStock (p : Product)
  | deleted (p : Product)
  | priceChange (c : PriceChange)
  deriving DecidableEq, Repr

/-- The `notifications` list built in the normal branch of
`_send_notifications`: five sequential append loops, one per change class. -/
def build_notifications (ch : Changes) : List NotifTask :=
  let n1 := ([] : List NotifTask) ++ ch.new.map NotifTask.newProduct
  let n2 := n1 ++ ch.out_of_stock.map NotifTask.outOfStock
  let n3 := n2 ++ ch.back_in_stock.map NotifTask.backInStock
  let n4 := n3 ++ ch.deleted.map NotifTask.deleted
  n4 ++ ch.price_changes.map NotifTask.priceChange

/-- Tally of `TelegramNotifier.send_batch_notifications`. -/
structure BatchResults where
  sent : Nat
  failed : Nat
  total : Nat
  deriving DecidableEq, Repr

/-- Sequential delivery loop of `send_batch_notifications`, with delivery
outcomes given by the oracle `deliver`; returns `(sent, failed, delivered
tasks in order)`. -/
def sendBatchGo (deliver : NotifTask → Bool) : List NotifTask → Nat × Nat × List NotifTask
  | [] => (0, 0, [])
  | t :: rest =>
    let r := sendBatchGo deliver rest
    if deliver t then (r.1 + 1, r.2.1, t :: r.2.2)
    else (r.1, r.2.1 + 1, t :: r.2.2)

/-- `TelegramNotifier.send_batch_notifications`: results dict plus the
ordered sequence of attempted deliveries. -/
def send_batch_notifications (deliver : NotifTask → Bool) (notifs : List NotifTask) :
    BatchResults × List NotifTask :=
  let r := sendBatchGo deliver notifs
  (⟨r.1, r.2.1, notifs.length⟩, r.2.2)

/-- A message emission observable at the dispatcher boundary: the cold-start
aggregate, a per-item notification, or the end-of-run summary report. -/
inductive SentMessage where
  | initialLoad (total available out_of_stock : Nat)
  | item (t : NotifTask)
  | summary (total_changes : Nat)
  deriving DecidableEq, Repr

/-- `ProductMonitor._send_notifications` as a message-emission sequence: on
first run, one aggregate message with counts computed from `changes['new']`;
otherwise one per-item task each (empty list when there are no changes). -/
def send_notifications_messages (is_first_run : Bool) (ch : Changes) : List SentMessage :=
  if is_first_run then
    let total_loaded := ch.new.length
    let available := (ch.new.filter (fun p => p.status == "Available")).length
    let out_of_stock := total_loaded - available
    [SentMessage.initialLoad total_loaded available out_of_stock]
  else
    (build_notifications ch).map SentMessage.item

/-- `total_changes` as summed in `TelegramNotifier.send_summary_report`. -/
def totalChanges (ch : Changes) : Nat :=
  ch.new.length + ch.out_of_stock.length + ch.back_in_stock.length +
    ch.deleted.length + ch.price_changes.length

/-- Steps 3–10 of `ProductMonitor.run_check`, restricted to the messages
emitted: detect first run from the loaded snapshot, build the current
snapshot, diff, dispatch, and send the summary report only when this is not
the first run. -/
def run_check_messages (old : Snapshot) (current_products_list : List Product) :
    List SentMessage :=
  let current := snapshotOfList current_products_list
  let first := check_if_first_run old
  let ch := computeChanges current old
  send_notifications_messages first ch ++
    (if first then [] else [SentMessage.summary (totalChanges ch)])

/-! ### Extractor: stock-status determination (`ZidScraper._parse_product`) -/

/-- Substring occurrence on character lists (Python's `in` on strings). -/
def substrOccurs (needle : List Char) : List Char → Bool
  | [] => needle.isEmpty
  | c :: rest => needle.isPrefixOf (c :: rest) || substrOccurs needle rest

/-- The raw signals `_parse_product` inspects on one catalog item to decide
stock status: the class list of the `.img.position-relative` container (if
that selector matched), the presence of a `.btn-out-of-stock` element, and
the item's full text. -/
structure RawItem where
  imgContainerClasses : Option (List String)
  hasOutOfStockButton : Bool
  text : String

/-- Indicator (a): `'img-grayscale' in img_container.get('class', [])`. -/
def has_grayscale (it : RawItem) : Bool :=
  match it.imgContainerClasses with
  | some cls => cls.contains "img-grayscale"
  | none => false

/-- Indicator (c): the Arabic out-of-stock token occurs in
`item.text.lower()`. -/
def has_out_text (it : RawItem) : Bool :=
  substrOccurs "غير متوفر".data it.text.toLower.data

/-- The status assignment of `_parse_product`: `"Available"` unless any of
the three indicators fires. -/
def parse_product_status (it : RawItem) : String :=
  if has_grayscale it || it.hasOutOfStockButton || has_out_text it then
    "Out of Stock"
  else "Available"

/-! ### Extractor: price normalization (`ZidScraper._extract_price`) -/

/-- Python `str.strip()` on a character list. -/
def stripChars (l : List Char) : List Char :=
  ((l.dropWhile Char.isWhitespace).reverse.dropWhile Char.isWhitespace).reverse

/-- Floor of log2, built structurally with `n` itself as fuel (only
`log2 n` fuel is consumed). -/
def natLog2Go : Nat → Nat → Nat
  | 0, _ => 0
  | fuel + 1, n => if 2 ≤ n then natLog2Go fuel (n / 2) + 1 else 0

/-- `Nat.log2`, kernel-reducible. -/
def natLog2 (n : Nat) : Nat :=
  natLog2Go n n

/-- Does `2 ^ E ≤ P / Q` hold (as rationals, `P, Q ≥ 1`)? -/
def twoPowLe (E : Int) (P Q : Nat) : Bool :=
  if 0 ≤ E then Q * 2 ^ E.toNat ≤ P else Q ≤ P * 2 ^ (-E).toNat

/-- The binary exponent of `P / Q`: the unique `E` with
`2 ^ E ≤ P / Q < 2 ^ (E + 1)` (true since `P / Q` lies strictly between
`2 ^ (log2 P - log2 Q - 1)` and `2 ^ (log2 P - log2 Q + 1)`). -/
def findExp (P Q : Nat) : Int :=
  let E0 : Int := (natLog2 P : Int) - (natLog2 Q : Int)
  if twoPowLe E0 P Q then E0 else E0 - 1

/-- Round `num / den` (with `den ≥ 1`) to the nearest integer, ties to
even — the IEEE-754 default rounding. -/
def rhe (num den : Nat) : Nat :=
  let q := num / den
  let r := num % den
  if den < 2 * r then q + 1
  else if 2 * r < den then q
  else if q % 2 == 1 then q + 1 else q

/-- `rhe` of `(P / Q) / 2 ^ e`. -/
def scaledRhe (P Q : Nat) (e : Int) : Nat :=
  if 0 ≤ e then rhe P (Q * 2 ^ e.toNat) else rhe (P * 2 ^ (-e).toNat) Q

/-- The IEEE-754 binary64 value the nonnegative decimal `N · 10 ^ k`
converts to — CPython parses float strings correctly rounded, ties to
even.  `some (m, e)` is the finite double `m · 2 ^ e` with `m < 2 ^ 53`
(subnormals via `e = -1074`); `none` is `+inf`, produced exactly when the
correctly rounded result reaches `2 ^ 1024` (CPython's `float()` on a
string saturates to `inf` rather than raising). -/
def decimalToDouble (N : Nat) (k : Int) : Option (Nat × Int) :=
  if N = 0 then some (0, 0)
  else
    let P := if 0 ≤ k then N * 10 ^ k.toNat else N
    let Q := if 0 ≤ k then 1 else 10 ^ (-k).toNat
    let E := findExp P Q
    if E < -1022 then some (scaledRhe P Q (-1074), -1074)
    else
      let m := scaledRhe P Q (E - 52)
      let E' := if m = 2 ^ 53 then E + 1 else E
      let m' := if m = 2 ^ 53 then 2 ^ 52 else m
      if 1024 ≤ E' then none else some (m', E' - 52)

/-- Python `str.split(sep)` for a one-character separator: always returns a
non-empty list of (possibly empty) chunks. -/
def splitOnChar (sep : Char) : List Char → List (List Char)
  | [] => [[]]
  | c :: rest =>
    match splitOnChar sep rest with
    | [] => [[c]]
    | h :: t => if c == sep then [] :: h :: t else (c :: h) :: t

/-- `ZidScraper._extract_product_id`: `url.split('/')[-1].split('?')[0]`. -/
def extract_product_id (url : String) : String :=
  let path := (splitOnChar '/' url.data).getLastD []
  ⟨(splitOnChar '?' path).headD []⟩

/-- Modelled from the spec sentence the claim cites (`id` is "the URL's
last non-empty path segment with any query string stripped"): drop
everything from the first `?` on, split the rest on `/`, and take the last
non-empty segment. -/
def spec_product_id (url : String) : String :=
  let noQuery := (splitOnChar '?' url.data).headD []
  ⟨((splitOnChar '/' noQuery).filter (fun seg => !seg.isEmpty)).getLastD []⟩

/-! ### Paginator (`ZidScraper.get_products`) -/

/-- Counters returned by one `get_products` run: accumulated products,
`pages_processed`, `errors_count`. -/
structure ScrapeResult where
  products : List Product
  pages_processed : Nat
  errors : Nat
  deriving DecidableEq, Repr

/-- The `for page in range(1, MAX_PAGES + 1)` loop of `get_products`, with
remaining iterations as fuel.  `fetch page` abstracts one
`_make_request`+selector round: `none` is a terminal fetch failure (whose
final retry already bumped `errors_count`), `some items` the raw
`product_items` list, each item carrying its `_parse_product` outcome.
A failed fetch stops with one more error; an empty item list stops the
catalog walk; otherwise parsed products accumulate, the page counter
advances, and a raw item count below 5 ends the walk after this page. -/
def get_products_loop (fetch : Nat → Option (List (Option Product))) :
    Nat → Nat → List Product → Nat → Nat → ScrapeResult
  | 0, _, acc, pages, errs => ⟨acc, pages, errs⟩
  | fuel + 1, page, acc, pages, errs =>
    match fetch page with
    | none => ⟨acc, pages, errs + 1⟩
    | some items =>
      if items.isEmpty then ⟨acc, pages, errs⟩
      else
        let acc' := acc ++ items.filterMap id
        if items.length < 5 then ⟨acc', pages + 1, errs⟩
        else get_products_loop fetch fuel (page + 1) acc' (pages + 1) errs

/-- `ZidScraper.get_products` over a page oracle, bounded by `MAX_PAGES`. -/
def get_products (fetch : Nat → Option (List (Option Product))) (maxPages : Nat) :
    ScrapeResult :=
  get_products_loop fetch maxPages 1 [] 0 0

/-! ### Notifier: retry loop (`TelegramNotifier._send_with_retry`) -/

/-- Outcome of `_send_with_retry`: the returned boolean, the number of
delivery attempts actually made, and the sleep durations between attempts
in order. -/
structure RetryResult where
  success : Bool
  attempts : Nat
  sleeps : List Nat
  deriving DecidableEq, Repr

/-- The `for attempt in range(1, max_retries + 1)` loop, with remaining
attempts as fuel; `send n` is the outcome of `_send_message` on attempt
`n`.  A failed non-final attempt sleeps `2 * attempt` seconds. -/
def sendRetryGo (send : Nat → Bool) : Nat → Nat → Nat → List Nat → RetryResult
  | 0, _, made, sleeps => ⟨false, made, sleeps⟩
  | fuel + 1, attempt, made, sleeps =>
    if send attempt then ⟨true, made + 1, sleeps⟩
    else if fuel == 0 then ⟨false, made + 1, sleeps⟩
    else sendRetryGo send fuel (attempt + 1) (made + 1) (sleeps ++ [2 * attempt])

/-- `TelegramNotifier._send_with_retry` over an attempt oracle. -/
def send_with_retry (send : Nat → Bool) (max_retries : Nat) : RetryResult :=
  sendRetryGo send max_retries 1 0 []

/-! ### Notifier: price-change direction (`TelegramNotifier.notify_price_change`) -/

/-- A CPython `float` value: a finite double `± m · 2 ^ e` (`m < 2 ^ 53`),
a signed infinity, or `nan`. -/
inductive PyFloat where
  | finite (neg : Bool) (m : Nat) (e : Int)
  | inf (neg : Bool)
  | nan
  deriving DecidableEq, Repr

/-- The decimal digits `float()` accepts, with their values: ASCII `0-9`
plus the Arabic-Indic and Extended Arabic-Indic ranges this catalog's
locale can produce (CPython maps all Unicode decimal digits to ASCII
before parsing; the model covers the ranges relevant here). -/
def pyDigitVal? (c : Char) : Option Nat :=
  if '0' ≤ c ∧ c ≤ '9' then some (c.toNat - 48)
  else if '٠' ≤ c ∧ c ≤ '٩' then some (c.toNat - 0x660)
  else if '۰' ≤ c ∧ c ≤ '۹' then some (c.toNat - 0x6F0)
  else none

/-- Is `c` a digit `float()` accepts? -/
def isPyDigit (c : Char) : Bool :=
  (pyDigitVal? c).isSome

/-- The number denoted by a `float()` digit string. -/
def pyDigitsToNat (l : List Char) : Nat :=
  l.foldl (fun n c => n * 10 + (pyDigitVal? c).getD 0) 0

/-- PEP 515 underscore placement: every `_` must sit directly between two
digits (`float("1_0")` is 10.0, `float("1_.0")` and `float("1__0")`
raise). -/
def underscoresValidGo : Option Char → List Char → Bool
  | _, [] => true
  | prev, c :: rest =>
    if c = '_' then
      (match prev with | some p => isPyDigit p | none => false) &&
      (match rest with | r :: _ => isPyDigit r | [] => false) &&
      underscoresValidGo (some c) rest
    else underscoresValidGo (some c) rest

/-- Underscore-placement check over a whole token. -/
def underscoresValid (l : List Char) : Bool :=
  underscoresValidGo none l

/-- The numeric part of the `float()` grammar (sign and underscores
already handled): `digits [. digits] [(e|E) [sign] digits]` with at least
one mantissa digit and nothing left over; returns the denoted value as
`N · 10 ^ k`. -/
def parseNumericCore (l : List Char) : Option (Nat × Int) :=
  let ip := l.takeWhile isPyDigit
  let r1 := l.dropWhile isPyDigit
  let fr : List Char × List Char :=
    match r1 with
    | '.' :: t => (t.takeWhile isPyDigit, t.dropWhile isPyDigit)
    | _ => ([], r1)
  if ip.isEmpty && fr.1.isEmpty then none
  else
    match fr.2 with
    | [] => some (pyDigitsToNat (ip ++ fr.1), -(fr.1.length : Int))
    | c :: t =>
      if c = 'e' ∨ c = 'E' then
        let es : List Char × Bool :=
          match t with
          | '-' :: u => (u, true)
          | '+' :: u => (u, false)
          | _ => (t, false)
        let ed := es.1.takeWhile isPyDigit
        if ed.isEmpty || !(es.1.dropWhile isPyDigit).isEmpty then none
        else
          let ev : Int := if es.2 then -(pyDigitsToNat ed : Int) else (pyDigitsToNat ed : Int)
          some (pyDigitsToNat (ip ++ fr.1), ev - (fr.1.length : Int))
      else none

/-- CPython `float(s)`: strip surrounding whitespace, optional sign, then
either a caseless `inf`/`infinity`/`nan` token or a decimal numeral
(optional exponent, PEP 515 underscores) correctly rounded to binary64,
saturating to infinity on overflow; `none` when `float` raises
`ValueError`. -/
def parseFloat? (s : String) : Option PyFloat :=
  let l := stripChars s.data
  let core : List Char × Bool :=
    match l with
    | '-' :: r => (r, true)
    | '+' :: r => (r, false)
    | _ => (l, false)
  let low := core.1.map Char.toLower
  if low = "inf".data || low = "infinity".data then some (.inf core.2)
  else if low = "nan".data then some .nan
  else if !underscoresValid core.1 then none
  else
    match parseNumericCore (core.1.filter (fun c => c != '_')) with
    | none => none
    | some (N, k) =>
      match decimalToDouble N k with
      | none => some (.inf core.2)
      | some (m, e) => some (.finite core.2 m e)

/-- The direction indicator chosen by `notify_price_change`. -/
inductive PriceDirection where
  | increase
  | decrease
  | neutral
  deriving DecidableEq, Repr

/-- The sign test `new_p - old_p > 0` the code performs on the two parsed
doubles.  IEEE-754 subtraction of two distinct finite doubles never rounds
to zero (their exact difference is at least one subnormal quantum, thanks
to gradual underflow) and rounding preserves sign, so for finite operands
the test equals exact comparison of the two binary values; `inf` operands
follow infinity arithmetic (`inf - inf = nan`, and any comparison with
`nan` is false). -/
def diffPositive (nf of : PyFloat) : Bool :=
  match nf, of with
  | .nan, _ => false
  | _, .nan => false
  | .inf nn, .inf no => !nn && no
  | .inf nn, .finite _ _ _ => !nn
  | .finite _ _ _, .inf no => no
  | .finite n1 m1 e1, .finite n2 m2 e2 =>
    let v1 : Int := if n1 then -(m1 : Int) else (m1 : Int)
    let v2 : Int := if n2 then -(m2 : Int) else (m2 : Int)
    if 0 ≤ e1 - e2 then v2 < v1 * 2 ^ (e1 - e2).toNat
    else v2 * 2 ^ (e2 - e1).toNat < v1

/-- The `try`/`except` block of `notify_price_change`: both prices are
parsed with `float()`; a strictly positive delta `new_p - old_p` picks the
increase indicator, any other outcome of the subtraction the decrease
indicator, and a parse failure of either price the neutral one. -/
def price_change_indicator (old_price new_price : String) : PriceDirection :=
  match parseFloat? old_price, parseFloat? new_price with
  | some o, some n => if diffPositive n o then .increase else .decrease
  | _, _ => .neutral

/-! ### Supporting lemmas -/

lemma containsKey_nil (k : String) : containsKey k ([] : Snapshot) = false := rfl

lemma detect_new_empty_prev (cur : Snapshot) :
    detect_new_products cur [] = cur.map Prod.snd := by
  induction cur with
  | nil => rfl
  | cons e rest ih =>
    have hstep : detect_new_products (e :: rest) [] = e.2 :: detect_new_products rest [] := rfl
    rw [hstep, ih, List.map_cons]

lemma detect_status_empty_prev (cur : Snapshot) :
    detect_status_changes cur [] = ([], []) := by
  induction cur with
  | nil => rfl
  | cons e rest ih =>
    obtain ⟨k, np⟩ := e
    simp [detect_status_changes, snapLookup, ih]

lemma detect_price_empty_prev (cur : Snapshot) :
    detect_price_changes cur [] = [] := by
  induction cur with
  | nil => rfl
  | cons e rest ih =>
    obtain ⟨k, np⟩ := e
    simp [detect_price_changes, snapLookup, ih]

/-- C1: Cold start.  With an empty previous snapshot the differ classifies
every current product as `new` and nothing else, and the run emits exactly
one message: the aggregate initial-load message whose counts (total,
available, out-of-stock) are derived from the `new` list.  In particular no
per-item notification and no summary report is sent on that run. -/
theorem cold_start_one_aggregate_message (ps : List Product) :
    (computeChanges (snapshotOfList ps) []).new = (snapshotOfList ps).map Prod.snd ∧
    (computeChanges (snapshotOfList ps) []).deleted = [] ∧
    (computeChanges (snapshotOfList ps) []).out_of_stock = [] ∧
    (computeChanges (snapshotOfList ps) []).back_in_stock = [] ∧
    (computeChanges (snapshotOfList ps) []).price_changes = [] ∧
    run_check_messages [] ps =
      [SentMessage.initialLoad ((snapshotOfList ps).map Prod.snd).length
        (((snapshotOfList ps).map Prod.snd).filter (fun p => p.status == "Available")).length
        (((snapshotOfList ps).map Prod.snd).length -
          (((snapshotOfList ps).map Prod.snd).filter (fun p => p.status == "Available")).length)] := by
  refine ⟨detect_new_empty_prev _, rfl, ?_, ?_, detect_price_empty_prev _, ?_⟩
  · simp [computeChanges, detect_status_empty_prev]
  · simp [computeChanges, detect_status_empty_prev]
  · simp [run_check_messages, check_if_first_run, send_notifications_messages,
      computeChanges, detect_new_empty_prev]

/-- C3: Status determination is the boolean OR of the three independent
out-of-stock indicators: the status is `"Out of Stock"` iff at least one of
grayscale-image class, out-of-stock control element, or out-of-stock text
token holds, `"Available"` iff all three are false, and the OR is
order-independent. -/
theorem status_or_of_indicators (it : RawItem) :
    (parse_product_status it = "Out of Stock" ↔
      (has_grayscale it = true ∨ it.hasOutOfStockButton = true ∨ has_out_text it = true)) ∧
    (parse_product_status it = "Available" ↔
      (has_grayscale it = false ∧ it.hasOutOfStockButton = false ∧ has_out_text it = false)) ∧
    parse_product_status it =
      (if has_out_text it || it.hasOutOfStockButton || has_grayscale it then
        "Out of Stock" else "Available") := by
  unfold parse_product_status
  cases h1 : has_grayscale it <;> cases h2 : it.hasOutOfStockButton <;>
    cases h3 : has_out_text it <;> simp

lemma mem_went_out_status {cur old : Snapshot} {p : Product}
    (h : p ∈ (detect_status_changes cur old).1) : p.status = "Out of Stock" := by
  induction cur with
  | nil => simp [detect_status_changes] at h
  | cons e rest ih =>
    obtain ⟨k, np⟩ := e
    rcases hl : snapLookup k old with _ | op <;>
      simp only [detect_status_changes, hl] at h
    · exact ih h
    · by_cases h1 : (op.status == "Available" && np.status == "Out of Stock") = true
      · rw [if_pos h1] at h
        rcases List.mem_cons.mp h with rfl | hm
        · simpa using (Bool.and_eq_true_iff.mp h1).2
        · exact ih hm
      · rw [if_neg h1] at h
        by_cases h2 : (op.status == "Out of Stock" && np.status == "Available") = true
        · rw [if_pos h2] at h; exact ih h
        · rw [if_neg h2] at h; exact ih h

lemma mem_came_back_status {cur old : Snapshot} {p : Product}
    (h : p ∈ (detect_status_changes cur old).2) : p.status = "Available" := by
  induction cur with
  | nil => simp [detect_status_changes] at h
  | cons e rest ih =>
    obtain ⟨k, np⟩ := e
    rcases hl : snapLookup k old with _ | op <;>
      simp only [detect_status_changes, hl] at h
    · exact ih h
    · by_cases h1 : (op.status == "Available" && np.status == "Out of Stock") = true
      · rw [if_pos h1] at h; exact ih h
      · rw [if_neg h1] at h
        by_cases h2 : (op.status == "Out of Stock" && np.status == "Available") = true
        · rw [if_pos h2] at h
          rcases List.mem_cons.mp h with rfl | hm
          · simpa using (Bool.and_eq_true_iff.mp h2).2
          · exact ih hm
        · rw [if_neg h2] at h; exact ih h

/-- Previous state of the worked example: product `A`, available at 10.00. -/
def exOldA : Product := ⟨"A", "Lamp", "https://s/products/A", "10.00", "Available"⟩

/-- Current state of the worked example: product `A`, out of stock at 12.00. -/
def exNewA : Product := ⟨"A", "Lamp", "https://s/products/A", "12.00", "Out of Stock"⟩

/-- C5: For any id present in both snapshots at most one status-transition
class applies: everything in `went_out` is now `"Out of Stock"`, everything
in `came_back` is now `"Available"`, so no product is in both.  Price
changes are independent: in the worked example one id undergoes a status
transition and a price change in the same run. -/
theorem status_transition_exclusive_price_independent (current old : Snapshot) :
    (∀ p : Product, p ∈ (detect_status_changes current old).1 → p.status = "Out of Stock") ∧
    (∀ p : Product, p ∈ (detect_status_changes current old).2 → p.status = "Available") ∧
    (∀ p : Product,
      ¬(p ∈ (detect_status_changes current old).1 ∧ p ∈ (detect_status_changes current old).2)) ∧
    (exNewA ∈ (detect_status_changes [("A", exNewA)] [("A", exOldA)]).1 ∧
      (⟨exNewA, "10.00", "12.00"⟩ : PriceChange) ∈
        detect_price_changes [("A", exNewA)] [("A", exOldA)]) := by
  refine ⟨fun p h => mem_went_out_status h, fun p h => mem_came_back_status h,
    fun p ⟨h1, h2⟩ => ?_, by decide⟩
  have := mem_went_out_status h1
  have := mem_came_back_status h2
  simp_all

/-- Witness for C5: applying the exclusivity theorem to the worked example
puts product `A` (now out of stock) in the `went_out` class. -/
theorem status_transition_exclusive_witness : exNewA.status = "Out of Stock" :=
  (status_transition_exclusive_price_independent [("A", exNewA)] [("A", exOldA)]).1
    exNewA (by decide)

lemma sendBatchGo_events (deliver : NotifTask → Bool) (l : List NotifTask) :
    (sendBatchGo deliver l).2.2 = l := by
  induction l with
  | nil => rfl
  | cons t rest ih =>
    simp only [sendBatchGo]
    by_cases h : deliver t = true <;> simp [h, ih]

lemma sendBatchGo_tally (deliver : NotifTask → Bool) (l : List NotifTask) :
    (sendBatchGo deliver l).1 + (sendBatchGo deliver l).2.1 = l.length := by
  induction l with
  | nil => rfl
  | cons t rest ih =>
    simp only [sendBatchGo]
    by_cases h : deliver t = true <;> simp [h] <;> omega

/-- C7: On a normal run the dispatcher builds the notification tasks in the
fixed priority order `new`, `went_out_of_stock`, `came_back_in_stock`,
`deleted`, `price_changed`, preserving each list's internal order, and the
batch sender attempts delivery of exactly that sequence of tasks in that
order, tallying every task as sent or failed. -/
theorem notifications_priority_order (ch : Changes) (deliver : NotifTask → Bool) :
    build_notifications ch =
      ch.new.map NotifTask.newProduct ++ ch.out_of_stock.map NotifTask.outOfStock ++
        ch.back_in_stock.map NotifTask.backInStock ++ ch.deleted.map NotifTask.deleted ++
        ch.price_changes.map NotifTask.priceChange ∧
    (send_batch_notifications deliver (build_notifications ch)).2 =
      build_notifications ch ∧
    (send_batch_notifications deliver (build_notifications ch)).1.total =
      (build_notifications ch).length ∧
    (send_batch_notifications deliver (build_notifications ch)).1.sent +
      (send_batch_notifications deliver (build_notifications ch)).1.failed =
        (build_notifications ch).length := by
  refine ⟨by simp [build_notifications], ?_, rfl, ?_⟩
  · exact sendBatchGo_events deliver _
  · exact sendBatchGo_tally deliver _

/-- C8: With `max_retries = 3` and a permanently failing send, the retry
loop makes exactly 3 attempts, returns failure, and sleeps 2 seconds after
the first attempt and 4 after the second, with no sleep after the final
attempt. -/
theorem retry_three_attempts_linear_backoff (send : Nat → Bool)
    (h : ∀ n, send n = false) :
    send_with_retry send 3 = ⟨false, 3, [2, 4]⟩ := by
  simp [send_with_retry, sendRetryGo, h]

/-- Witness for C8: the always-failing sender makes exactly 3 attempts with
sleeps 2 and 4. -/
theorem retry_three_attempts_witness :
    send_with_retry (fun _ => false) 3 = ⟨false, 3, [2, 4]⟩ :=
  retry_three_attempts_linear_backoff (fun _ => false) (fun _ => rfl)

lemma containsKey_iff {k : String} {s : Snapshot} :
    containsKey k s = true ↔ k ∈ snapKeys s := by
  simp only [containsKey, snapKeys, List.any_eq_true, List.mem_map, beq_iff_eq]

lemma mem_ids_new {current old : Snapshot} {x : String}
    (hC : ∀ e ∈ current, (Prod.snd e).id = e.1) :
    x ∈ (detect_new_products current old).map Product.id ↔
      x ∈ snapKeys current ∧ ¬ x ∈ snapKeys old := by
  simp only [detect_new_products, List.mem_map, List.mem_filterMap]
  constructor
  · rintro ⟨p, ⟨e, he, hf⟩, rfl⟩
    by_cases hk : containsKey e.1 old = true
    · rw [if_pos hk] at hf; cases hf
    · rw [if_neg hk] at hf
      obtain rfl : e.2 = p := Option.some.inj hf
      refine ⟨?_, fun hmem => ?_⟩
      · rw [hC e he]; exact List.mem_map.mpr ⟨e, he, rfl⟩
      · rw [hC e he] at hmem
        exact hk (containsKey_iff.mpr hmem)
  · rintro ⟨hc, hnp⟩
    obtain ⟨e, he, hfst⟩ := List.mem_map.mp hc
    have hk : ¬ containsKey e.1 old = true := fun hk => hnp (hfst ▸ containsKey_iff.mp hk)
    exact ⟨e.2, ⟨e, he, by rw [if_neg hk]⟩, by rw [hC e he, hfst]⟩

lemma detect_deleted_flip (current old : Snapshot) :
    detect_deleted_products current old = detect_new_products old current := rfl

/-- C2: For every pair of snapshots whose records carry their own key as
`id`, the id sets of `new`, `common = ids(P) ∩ ids(C)` and `deleted` are
pairwise disjoint and together cover exactly `ids(P) ∪ ids(C)`. -/
theorem diff_partition (P C : Snapshot) (x : String)
    (hP : ∀ e ∈ P, (Prod.snd e).id = e.1) (hC : ∀ e ∈ C, (Prod.snd e).id = e.1) :
    ¬(x ∈ (detect_new_products C P).map Product.id ∧
        (x ∈ snapKeys P ∧ x ∈ snapKeys C)) ∧
    ¬(x ∈ (detect_new_products C P).map Product.id ∧
        x ∈ (detect_deleted_products C P).map Product.id) ∧
    ¬((x ∈ snapKeys P ∧ x ∈ snapKeys C) ∧
        x ∈ (detect_deleted_products C P).map Product.id) ∧
    ((x ∈ (detect_new_products C P).map Product.id ∨
        (x ∈ snapKeys P ∧ x ∈ snapKeys C) ∨
        x ∈ (detect_deleted_products C P).map Product.id) ↔
      (x ∈ snapKeys P ∨ x ∈ snapKeys C)) := by
  rw [detect_deleted_flip, mem_ids_new hC, mem_ids_new hP]
  tauto

/-- Previous snapshot of the diff worked example: ids `a` and `b`. -/
def exSnapP : Snapshot :=
  [("a", ⟨"a", "Pa", "u1", "1.00", "Available"⟩),
   ("b", ⟨"b", "Pb", "u2", "2.00", "Available"⟩)]

/-- Current snapshot of the diff worked example: ids `a` and `c`. -/
def exSnapC : Snapshot :=
  [("a", ⟨"a", "Pa", "u1", "1.00", "Available"⟩),
   ("c", ⟨"c", "Pc", "u3", "3.00", "Out of Stock"⟩)]

/-- Witness for C2: on the worked example, id `b` (deleted) is not also
classified as new. -/
theorem diff_partition_witness :
    (∀ e ∈ exSnapP, (Prod.snd e).id = e.1) ∧
    (∀ e ∈ exSnapC, (Prod.snd e).id = e.1) ∧
    ¬("b" ∈ (detect_new_products exSnapC exSnapP).map Product.id ∧
      "b" ∈ (detect_deleted_products exSnapC exSnapP).map Product.id) :=
  ⟨by decide, by decide, (diff_partition exSnapP exSnapC "b" (by decide) (by decide)).2.1⟩

lemma get_products_loop_pages_le (fetch : Nat → Option (List (Option Product))) :
    ∀ fuel page acc pages errs,
      (get_products_loop fetch fuel page acc pages errs).pages_processed ≤ pages + fuel := by
  intro fuel
  induction fuel with
  | zero => intro page acc pages errs; simp [get_products_loop]
  | succ f ih =>
    intro page acc pages errs
    rcases hf : fetch page with _ | items <;>
      simp only [get_products_loop, hf]
    · simp
    · by_cases he : items.isEmpty
      · rw [if_pos he]; simp
      · rw [if_neg he]
        by_cases hs : items.length < 5
        · rw [if_pos hs]; simp
        · rw [if_neg hs]
          have := ih (page + 1) (acc ++ items.filterMap id) (pages + 1) errs
          omega

/-- C6: Pagination stop conditions.  A page with zero raw items stops the
loop leaving the error count (and the accumulated products) unchanged; a
non-empty page with fewer than 5 raw items stops the loop right after its
products are accumulated and the page counter advances; and the loop is
bounded by `MAX_PAGES`: with no fuel left it stops regardless of page
content, and a full run never processes more than `MAX_PAGES` pages. -/
theorem pagination_stop_conditions
    (fetch : Nat → Option (List (Option Product))) (maxPages fuel page : Nat)
    (acc : List Product) (pages errs : Nat) (items : List (Option Product)) :
    (fetch page = some [] →
      get_products_loop fetch (fuel + 1) page acc pages errs = ⟨acc, pages, errs⟩) ∧
    (fetch page = some items → items ≠ [] → items.length < 5 →
      get_products_loop fetch (fuel + 1) page acc pages errs =
        ⟨acc ++ items.filterMap id, pages + 1, errs⟩) ∧
    get_products_loop fetch 0 page acc pages errs = ⟨acc, pages, errs⟩ ∧
    (get_products fetch maxPages).pages_processed ≤ maxPages := by
  refine ⟨fun hf => ?_, fun hf hne hlt => ?_, rfl, ?_⟩
  · simp [get_products_loop, hf]
  · obtain ⟨i, is, rfl⟩ := List.exists_cons_of_ne_nil hne
    simp only [get_products_loop, hf, List.isEmpty_cons, Bool.false_eq_true, if_false,
      if_pos hlt]
  · simpa [get_products] using get_products_loop_pages_le fetch maxPages 1 [] 0 0

/-- Witness for C6: a single short page (one raw item) is fetched, its
parsed product accumulated, and the loop stops after that page. -/
theorem pagination_stop_witness :
    ((fun _ : Nat => some [some exOldA]) 1 = some [some exOldA]) ∧
    get_products_loop (fun _ : Nat => some [some exOldA]) 1 1 [] 0 0 =
      ⟨[exOldA], 1, 0⟩ :=
  ⟨rfl, (pagination_stop_conditions (fun _ : Nat => some [some exOldA]) 0 0 1 [] 0 0
    [some exOldA]).2.1 rfl (by decide) (by decide)⟩

/-- C10: The price-change direction indicator is `increase` exactly when
both prices parse under `float()` and the double subtraction
`new_p - old_p` the code performs is strictly positive; whenever both
parse and that delta is zero or negative — including textually different
but numerically equal prices such as `"10.0"` vs `"10.00"`, pairs such as
`"20"` vs `"1e1"` that need the full `float()` grammar, and decimals
closer than one ulp that round to the same double — it is `decrease`; and
the neutral indicator appears exactly when one of the two prices fails to
parse. -/
theorem price_direction_indicator (old_price new_price : String) :
    (price_change_indicator old_price new_price = .increase ↔
      ∃ o n, parseFloat? old_price = some o ∧ parseFloat? new_price = some n ∧
        diffPositive n o = true) ∧
    (∀ o n, parseFloat? old_price = some o → parseFloat? new_price = some n →
      diffPositive n o = false → price_change_indicator old_price new_price = .decrease) ∧
    (price_change_indicator old_price new_price = .neutral ↔
      (parseFloat? old_price = none ∨ parseFloat? new_price = none)) ∧
    price_change_indicator "10.0" "10.00" = .decrease ∧
    price_change_indicator "20" "1e1" = .decrease ∧
    price_change_indicator "10.000000000000000001" "10.000000000000000002" = .decrease := by
  refine ⟨?_, ?_, ?_, by decide, by decide, by decide⟩
  · rcases ho : parseFloat? old_price with _ | o <;>
      rcases hn : parseFloat? new_price with _ | n <;>
      simp only [price_change_indicator, ho, hn]
    · simp
    · simp
    · simp
    · by_cases hlt : diffPositive n o = true
      · rw [if_pos hlt]
        exact ⟨fun _ => ⟨o, n, rfl, rfl, hlt⟩, fun _ => rfl⟩
      · rw [if_neg hlt]
        constructor
        · intro h; exact absurd h (by decide)
        · rintro ⟨o', n', ho', hn', hlt'⟩
          obtain rfl := Option.some.inj ho'
          obtain rfl := Option.some.inj hn'
          exact absurd hlt' hlt
  · intro o n ho hn hfalse
    simp [price_change_indicator, ho, hn, hfalse]
  · rcases ho : parseFloat? old_price with _ | o <;>
      rcases hn : parseFloat? new_price with _ | n <;>
      simp only [price_change_indicator, ho, hn]
    · simp
    · simp
    · simp
    · split <;> simp

/-- Witness for C10: `"10.0"` and `"10.00"` both parse to the double
`5629499534213120 · 2 ^ (-49) = 10`, their delta is not positive, and the
indicator is `decrease`. -/
theorem price_direction_witness :
    parseFloat? "10.0" = some (.finite false 5629499534213120 (-49)) ∧
    parseFloat? "10.00" = some (.finite false 5629499534213120 (-49)) ∧
    price_change_indicator "10.0" "10.00" = .decrease :=
  ⟨by decide, by decide,
    (price_direction_indicator "10.0" "10.00").2.1
      (.finite false 5629499534213120 (-49)) (.finite false 5629499534213120 (-49))
      (by decide) (by decide) (by decide)⟩

lemma splitOnChar_ne_nil (sep : Char) (l : List Char) : splitOnChar sep l ≠ [] := by
  induction l with
  | nil => simp [splitOnChar]
  | cons c rest ih =>
    rcases hr : splitOnChar sep rest with _ | ⟨h, t⟩ <;>
      simp only [splitOnChar, hr]
    · simp
    · split <;> simp

lemma splitOnChar_no_sep {sep : Char} :
    ∀ {l : List Char}, sep ∉ l → splitOnChar sep l = [l] := by
  intro l
  induction l with
  | nil => intro _; rfl
  | cons c rest ih =>
    intro h
    have hc : ¬ (c == sep) = true := by
      simp only [beq_iff_eq]
      exact fun e => h (e ▸ List.mem_cons_self _ _)
    have hrest : sep ∉ rest := fun m => h (List.mem_cons_of_mem _ m)
    simp only [splitOnChar, ih hrest, if_neg hc]

lemma two_le_splitOnChar_length {sep : Char} :
    ∀ {l : List Char}, sep ∈ l → 2 ≤ (splitOnChar sep l).length := by
  intro l
  induction l with
  | nil => intro h; cases h
  | cons c rest ih =>
    intro h
    rcases hr : splitOnChar sep rest with _ | ⟨hd, t⟩
    · exact absurd hr (splitOnChar_ne_nil sep rest)
    · simp only [splitOnChar, hr]
      by_cases hc : (c == sep) = true
      · rw [if_pos hc]; simp
      · rw [if_neg hc]
        have hmem : sep ∈ rest := by
          rcases List.mem_cons.mp h with rfl | hm
          · exact absurd (beq_self_eq_true _) hc
          · exact hm
        have := ih hmem
        rw [hr] at this
        simpa using this

lemma getLastD_of_ne_nil {α : Type} {l : List α} (h : l ≠ []) (d d' : α) :
    l.getLastD d = l.getLastD d' := by
  cases l with
  | nil => exact absurd rfl h
  | cons a t => rw [List.getLastD_cons, List.getLastD_cons]

lemma splitOnChar_append_sep_getLastD (sep : Char) :
    ∀ (xs ys : List Char) (d : List Char),
      (splitOnChar sep (xs ++ sep :: ys)).getLastD d =
        (splitOnChar sep ys).getLastD d := by
  intro xs
  induction xs with
  | nil =>
    intro ys d
    rcases hr : splitOnChar sep ys with _ | ⟨h, t⟩
    · exact absurd hr (splitOnChar_ne_nil sep ys)
    · simp only [List.nil_append, splitOnChar, hr, beq_self_eq_true, if_true]
      rw [List.getLastD_cons]
      exact getLastD_of_ne_nil (List.cons_ne_nil h t) [] d
  | cons x xs ih =>
    intro ys d
    rcases hr : splitOnChar sep (xs ++ sep :: ys) with _ | ⟨h, t⟩
    · exact absurd hr (splitOnChar_ne_nil sep _)
    · have hlen : 2 ≤ (splitOnChar sep (xs ++ sep :: ys)).length :=
        two_le_splitOnChar_length (by simp)
      rw [hr] at hlen
      have ht : t ≠ [] := by
        intro hteq; subst hteq; simp at hlen
      have hih := ih ys d
      rw [hr] at hih
      simp only [List.cons_append, splitOnChar, List.append_eq, hr]
      by_cases hx : (x == sep) = true
      · rw [if_pos hx, List.getLastD_cons]
        rw [getLastD_of_ne_nil (List.cons_ne_nil h t) [] d]
        exact hih
      · rw [if_neg hx, List.getLastD_cons]
        rw [getLastD_of_ne_nil ht (x :: h) h]
        rw [List.getLastD_cons] at hih
        exact hih

lemma splitOnChar_append_sep_headD (sep : Char) :
    ∀ (xs ys : List Char) (d : List Char), sep ∉ xs →
      (splitOnChar sep (xs ++ sep :: ys)).headD d = xs := by
  intro xs
  induction xs with
  | nil =>
    intro ys d _
    rcases hr : splitOnChar sep ys with _ | ⟨h, t⟩
    · exact absurd hr (splitOnChar_ne_nil sep ys)
    · simp only [List.nil_append, splitOnChar, hr, beq_self_eq_true, if_true,
        List.headD_cons]
  | cons x xs ih =>
    intro ys d hx
    have hxs : sep ∉ xs := fun m => hx (List.mem_cons_of_mem _ m)
    have hxne : ¬ (x == sep) = true := by
      simp only [beq_iff_eq]
      exact fun e => hx (e ▸ List.mem_cons_self _ _)
    rcases hr : splitOnChar sep (xs ++ sep :: ys) with _ | ⟨h, t⟩
    · exact absurd hr (splitOnChar_ne_nil sep _)
    · have hih := ih ys d hxs
      rw [hr] at hih
      simp only [List.headD_cons] at hih
      simp only [List.cons_append, splitOnChar, List.append_eq, hr, if_neg hxne,
        List.headD_cons, hih]

lemma getLast?_eq_some_getLastD {α : Type} :
    ∀ (l : List α), l ≠ [] → ∀ d, l.getLast? = some (l.getLastD d) := by
  intro l
  induction l with
  | nil => intro h; exact absurd rfl h
  | cons a t ih =>
    intro _ d
    cases t with
    | nil => rfl
    | cons b t2 =>
      rw [List.getLast?_cons_cons, List.getLastD_cons]
      exact ih (List.cons_ne_nil b t2) a

lemma filter_nonempty_getLastD :
    ∀ (l : List (List Char)) (x d : List Char),
      l.getLast? = some x → x ≠ [] →
      (l.filter (fun s => !s.isEmpty)).getLastD d = x := by
  intro l
  induction l with
  | nil => intro x d h _; cases h
  | cons a t ih =>
    intro x d hl hx
    cases t with
    | nil =>
      obtain rfl : a = x := by simpa using hl
      have ha : (!a.isEmpty) = true := by simpa [List.isEmpty_iff] using hx
      rw [@List.filter_cons_of_pos _ (fun s => !s.isEmpty) a [] ha]
      rw [show List.filter (fun s : List Char => !s.isEmpty) [] = [] from rfl,
        List.getLastD_cons, List.getLastD_nil]
    | cons b t2 =>
      have hl2 : (b :: t2).getLast? = some x := by
        rwa [List.getLast?_cons_cons] at hl
      by_cases ha : (!a.isEmpty) = true
      · rw [@List.filter_cons_of_pos _ (fun s => !s.isEmpty) a (b :: t2) ha,
          List.getLastD_cons]
        exact ih x a hl2 hx
      · rw [@List.filter_cons_of_neg _ (fun s => !s.isEmpty) a (b :: t2) (by simpa using ha)]
        exact ih x d hl2 hx

/-- Counterexample to C9 as stated: on a product URL ending in `/`, the
extractor returns the empty string, not the last non-empty path segment
`"8972"` demanded by the claim. -/
theorem extract_id_counterexample :
    extract_product_id "https://shop.zid.sa/products/8972/" = "" ∧
    spec_product_id "https://shop.zid.sa/products/8972/" = "8972" ∧
    extract_product_id "https://shop.zid.sa/products/8972/" ≠
      spec_product_id "https://shop.zid.sa/products/8972/" := by
  refine ⟨by decide, by decide, by decide⟩

/-- C9 (amended): The extracted id is the text after the URL's final `/`,
truncated at the first `?`.  For every URL whose last path segment is
non-empty, whose part before the query contains no `?`, and whose query
(if present) contains no `/`, this agrees with the claim: both the code's
extraction and the last non-empty path segment with the query stripped
equal that segment. -/
theorem extract_id_last_segment (pre seg q : List Char)
    (hseg : seg ≠ []) (hs1 : '/' ∉ seg) (hs2 : '?' ∉ seg)
    (hq : '/' ∉ q) (hpre : '?' ∉ pre)
    (hqform : q = [] ∨ ∃ q', q = '?' :: q') :
    extract_product_id ⟨pre ++ '/' :: (seg ++ q)⟩ = ⟨seg⟩ ∧
    spec_product_id ⟨pre ++ '/' :: (seg ++ q)⟩ = ⟨seg⟩ := by
  have hsq : '/' ∉ seg ++ q := by
    simp only [List.mem_append, not_or]
    exact ⟨hs1, hq⟩
  constructor
  · simp only [extract_product_id]
    rw [splitOnChar_append_sep_getLastD '/' pre (seg ++ q) [], splitOnChar_no_sep hsq]
    rw [List.getLastD_cons, List.getLastD_nil]
    rcases hqform with rfl | ⟨q', rfl⟩
    · rw [List.append_nil, splitOnChar_no_sep hs2, List.headD_cons]
    · rw [splitOnChar_append_sep_headD '?' seg q' [] hs2]
  · simp only [spec_product_id]
    have hnoq : (splitOnChar '?' (pre ++ '/' :: (seg ++ q))).headD [] = pre ++ '/' :: seg := by
      rcases hqform with rfl | ⟨q', rfl⟩
      · rw [List.append_nil]
        have hnone : '?' ∉ pre ++ '/' :: seg := by
          simp only [List.mem_append, List.mem_cons, not_or]
          exact ⟨hpre, by decide, hs2⟩
        rw [splitOnChar_no_sep hnone, List.headD_cons]
      · rw [show pre ++ '/' :: (seg ++ '?' :: q') = (pre ++ '/' :: seg) ++ '?' :: q' by simp]
        refine splitOnChar_append_sep_headD '?' _ q' [] ?_
        simp only [List.mem_append, List.mem_cons, not_or]
        exact ⟨hpre, by decide, hs2⟩
    rw [hnoq]
    have hlast : (splitOnChar '/' (pre ++ '/' :: seg)).getLast? = some seg := by
      rw [getLast?_eq_some_getLastD _ (splitOnChar_ne_nil _ _) []]
      rw [splitOnChar_append_sep_getLastD '/' pre seg [], splitOnChar_no_sep hs1,
        List.getLastD_cons, List.getLastD_nil]
    rw [filter_nonempty_getLastD _ seg [] hlast hseg]

/-- Witness for C9 (amended): a well-formed product URL with a query string
yields the id `8972` on both the code side and the spec side. -/
theorem extract_id_last_segment_witness :
    ("8972".data ≠ [] ∧ '/' ∉ "variant=123".data) ∧
    extract_product_id
      ⟨"https://shop.zid.sa/products".data ++ '/' :: ("8972".data ++ "?variant=123".data)⟩ =
      ⟨"8972".data⟩ :=
  ⟨⟨by decide, by decide⟩,
    (extract_id_last_segment "https://shop.zid.sa/products".data "8972".data
      "?variant=123".data (by decide) (by decide) (by decide) (by decide) (by decide)
      (Or.inr ⟨"variant=123".data, rfl⟩)).1⟩
